import Mathlib

/-!
Shallow embedding of the dfsim simulator (src/dfsim/simulator.py): a 2D grid
spatial architecture simulator with neighbor communication and multiple
communication channels.  Python's in-place mutation is embedded as explicit
state passing on a `Processor` value; a raised `IndexError` is embedded as
`none` in the `Option` monad.  Every `send` invocation additionally records a
ghost log entry (the direction, channel and message arguments it was called
with); the log never influences the simulated state, it only makes "send was
invoked with direction d" a statable property.
-/

namespace DFSim

/-- Directionality of a message route (class `Direction` in simulator.py). -/
inductive Direction : Type where
  | NORTH
  | SOUTH
  | EAST
  | WEST
  | PROCESSOR
  | NOTHING
deriving DecidableEq

/-- Type of message handlers: a handler receives the processing element memory
and an optional message, may update the memory, and may return a response
message (`HandlerType` in simulator.py; Python mutation of the shared memory
object is embedded as returning the updated memory value). -/
def HandlerType (Mem Msg : Type) : Type := Mem → Option Msg → Mem × Option Msg

/-- State of one processing element (class `PE` in simulator.py).  The Python
fields `i`, `j` and `parent` are represented implicitly: a cell is identified
by its flat index `row * cols + col` into the `pes` list of its `Processor`,
exactly the index at which `Processor.__init__` places it. -/
structure PE (Mem Msg : Type) where
  memory : Mem
  inbound_routes : List Direction
  outbound_routes : List Direction
  skip_routes : List (Direction × Direction)
  queues : List (List Msg)
  handlers : List (List (HandlerType Mem Msg))

/-- The simulated dataflow processor grid (class `Processor` in simulator.py). -/
structure Processor (Mem Msg : Type) where
  rows : Nat
  cols : Nat
  channels : Nat
  pes : List (PE Mem Msg)

variable {Mem Msg : Type}

/-- Fresh processing element (`PE.__init__`): all routes NOTHING, all queues
empty, no handlers, with the given initial memory. -/
def PE.init (channels : Nat) (memory : Mem) : PE Mem Msg where
  memory := memory
  inbound_routes := List.replicate channels Direction.NOTHING
  outbound_routes := List.replicate channels Direction.NOTHING
  skip_routes := List.replicate channels (Direction.NOTHING, Direction.NOTHING)
  queues := List.replicate channels []
  handlers := List.replicate channels []

/-- Processor construction (`Processor.__init__`) with a supplied default
memory prototype.  Every cell receives `copy.deepcopy(default_memory)`; with
value semantics a deep copy has the same value as the prototype, so each
cell's memory field holds the prototype value (the reference-level independence
of the copies is modelled separately by the `Store` heap model below).  The
Python case `default_memory = None` is obtained by instantiating `Mem` with an
option type. -/
def Processor.init (rows cols channels : Nat) (default_memory : Mem) :
    Processor Mem Msg where
  rows := rows
  cols := cols
  channels := channels
  pes := List.replicate (rows * cols) (PE.init channels default_memory)

/-- Bounds-checked cell lookup (`Processor.__getitem__`); `none` embeds the
Python `IndexError`. -/
def Processor.getItem (g : Processor Mem Msg) (i j : Int) : Option (PE Mem Msg) :=
  if i < 0 ∨ i ≥ (g.rows : Int) ∨ j < 0 ∨ j ≥ (g.cols : Int) then none
  else g.pes.get? (i.toNat * g.cols + j.toNat)

/-- Replaces the processing element at a flat index. -/
def Processor.setPE (g : Processor Mem Msg) (idx : Nat) (pe : PE Mem Msg) :
    Processor Mem Msg :=
  { g with pes := g.pes.set idx pe }

/-- Updates the processing element at a flat index in place. -/
def Processor.modifyPE (g : Processor Mem Msg) (idx : Nat)
    (f : PE Mem Msg → PE Mem Msg) : Processor Mem Msg :=
  match g.pes.get? idx with
  | none => g
  | some pe => g.setPE idx (f pe)

/-- Appends a message to the queue of the given channel
(`queues[channel].append(element)`). -/
def PE.appendToQueue (pe : PE Mem Msg) (channel : Nat) (m : Msg) : PE Mem Msg :=
  { pe with queues := pe.queues.set channel (pe.queues.getD channel [] ++ [m]) }

/-- Ghost record of one invocation of the `send` primitive: the direction and
channel arguments it was called with, the message, and whether the call site
was the skip-route forwarding inside `run_channels`.  The log does not
influence the simulation. -/
structure SendEv (Msg : Type) where
  dir : Direction
  channel : Nat
  msg : Msg
  viaSkip : Bool
deriving DecidableEq

/-- Simulation state: the processor grid together with the ghost log of `send`
invocations. -/
structure Sim (Mem Msg : Type) where
  grid : Processor Mem Msg
  log : List (SendEv Msg)

/-- Appends a message to the queue of the cell at `(i, j)`, performing the
bounds-checked lookup `self.parent[i, j]` done by `PE.send`; `none` embeds the
`IndexError`. -/
def Sim.sendTo (s : Sim Mem Msg) (i j : Int) (channel : Nat) (m : Msg) :
    Option (Sim Mem Msg) :=
  match s.grid.getItem i j with
  | none => none
  | some _ =>
    some { s with
      grid := s.grid.modifyPE (i.toNat * s.grid.cols + j.toNat)
        (fun pe => pe.appendToQueue channel m) }

/-- The `send` primitive (`PE.send`): the cell at `(i, j)` sends `element` on
the given channel toward `direction`.  The ghost log records the invocation.
The PROCESSOR direction appends to the sending cell's own queue without any
lookup; a NOTHING direction matches no branch of the Python if-chain and is a
silent no-op. -/
def Sim.send (s : Sim Mem Msg) (i j : Int) (element : Msg)
    (direction : Direction) (channel : Nat) (viaSkip : Bool) :
    Option (Sim Mem Msg) :=
  let s1 : Sim Mem Msg := { s with log := s.log ++ [⟨direction, channel, element, viaSkip⟩] }
  match direction with
  | Direction.NORTH => s1.sendTo (i - 1) j channel element
  | Direction.SOUTH => s1.sendTo (i + 1) j channel element
  | Direction.EAST => s1.sendTo i (j + 1) channel element
  | Direction.WEST => s1.sendTo i (j - 1) channel element
  | Direction.PROCESSOR =>
    some { s1 with
      grid := s1.grid.modifyPE (i.toNat * s1.grid.cols + j.toNat)
        (fun pe => pe.appendToQueue channel element) }
  | Direction.NOTHING => some s1

/-- Runs the handler list of one channel (the handler loop of
`PE.run_channels`): every handler is invoked in registration order with the
current memory and the dequeued element; the `tosend` accumulator is
overwritten by each handler's return value, so only the last handler's return
value survives, while memory updates thread through all handlers. -/
def runHandlers (hs : List (HandlerType Mem Msg)) (memory : Mem)
    (element : Option Msg) : Mem × Option Msg :=
  hs.foldl (fun acc handler => handler acc.1 element) (memory, none)

/-- Handler and outbound part of one channel iteration of `PE.run_channels`:
the handler loop over the dequeued element followed by the outbound forwarding
of the last handler's return value.  `idx` is the flat index of the cell whose
coordinates are `(i, j)`. -/
def Sim.handlerPhase (s : Sim Mem Msg) (idx i j p : Nat) (pe : PE Mem Msg)
    (element : Option Msg) : Option (Sim Mem Msg) :=
  let hr := runHandlers (pe.handlers.getD p []) pe.memory element
  let s3 : Sim Mem Msg :=
    { s with grid := s.grid.modifyPE idx (fun q => { q with memory := hr.1 }) }
  match hr.2 with
  | none => some s3
  | some m =>
    if pe.outbound_routes.getD p Direction.NOTHING ≠ Direction.NOTHING then
      s3.send (i : Int) (j : Int) m (pe.outbound_routes.getD p Direction.NOTHING) p false
    else some s3

/-- One channel iteration of `PE.run_channels` for the cell at row `i`,
column `j`: dequeue the oldest message if any, skip-route forwarding, then the
handler and outbound phase. -/
def Sim.run_channel (s : Sim Mem Msg) (i j p : Nat) : Option (Sim Mem Msg) :=
  match s.grid.pes.get? (i * s.grid.cols + j) with
  | none => some s
  | some pe =>
    let idx := i * s.grid.cols + j
    let dq : Option Msg × Sim Mem Msg :=
      match pe.queues.getD p [] with
      | [] => (none, s)
      | e :: rest =>
        (some e, { s with
          grid := s.grid.modifyPE idx (fun q => { q with queues := q.queues.set p rest }) })
    let afterSkip : Option (Sim Mem Msg) :=
      match dq.1 with
      | none => some dq.2
      | some e =>
        if (pe.skip_routes.getD p (Direction.NOTHING, Direction.NOTHING)).1 ≠ Direction.NOTHING then
          dq.2.send (i : Int) (j : Int) e
            (pe.skip_routes.getD p (Direction.NOTHING, Direction.NOTHING)).2 p true
        else some dq.2
    afterSkip.bind fun s2 => s2.handlerPhase idx i j p pe dq.1

/-- Simulates all channels of the cell at `(i, j)` (`PE.run_channels`). -/
def Sim.run_channels (s : Sim Mem Msg) (i j : Nat) : Option (Sim Mem Msg) :=
  (List.range s.grid.channels).foldlM (fun s1 p => Sim.run_channel s1 i j p) s

/-- One full time step (the loop body of `Processor.simulate`): every cell is
visited in row-major order, rows ascending then columns ascending. -/
def Sim.step (s : Sim Mem Msg) : Option (Sim Mem Msg) :=
  (List.range s.grid.rows).foldlM
    (fun s1 i => (List.range s1.grid.cols).foldlM (fun s2 j => Sim.run_channels s2 i j) s1) s

/-- `Processor.simulate`: runs the dataflow architecture for the given number
of time steps. -/
def Sim.simulate (s : Sim Mem Msg) : Nat → Option (Sim Mem Msg)
  | 0 => some s
  | n + 1 => (Sim.step s).bind fun s2 => Sim.simulate s2 n

/-- `Processor.route`: creates a new route at cell `(proc_i, proc_j)`.  Which
of the three route kinds is set is decided by which argument equals PROCESSOR,
the `snd` test coming first.  The channel bound checks embed the Python list
indexing errors. -/
def Processor.route (g : Processor Mem Msg) (proc_i proc_j : Int)
    (channel : Nat) (rcv snd : Direction) : Option (Processor Mem Msg) :=
  match g.getItem proc_i proc_j with
  | none => none
  | some pe =>
    let idx := proc_i.toNat * g.cols + proc_j.toNat
    if snd = Direction.PROCESSOR then
      if channel < pe.inbound_routes.length then
        some (g.setPE idx { pe with inbound_routes := pe.inbound_routes.set channel rcv })
      else none
    else if rcv = Direction.PROCESSOR then
      if channel < pe.outbound_routes.length then
        some (g.setPE idx { pe with outbound_routes := pe.outbound_routes.set channel snd })
      else none
    else
      if channel < pe.skip_routes.length then
        some (g.setPE idx { pe with skip_routes := pe.skip_routes.set channel (rcv, snd) })
      else none

/-- `Processor.register_handler` composed with `PE.register_handler`: appends
the handler to the cell's handler list of the given channel. -/
def Processor.register_handler (g : Processor Mem Msg) (proc_i proc_j : Int)
    (channel : Nat) (func : HandlerType Mem Msg) : Option (Processor Mem Msg) :=
  match g.getItem proc_i proc_j with
  | none => none
  | some pe =>
    if channel < pe.handlers.length then
      some (g.setPE (proc_i.toNat * g.cols + proc_j.toNat)
        { pe with handlers := pe.handlers.set channel (pe.handlers.getD channel [] ++ [func]) })
    else none

/-- One call of the documented configuration API surface. -/
inductive ApiCall (Mem Msg : Type) : Type where
  | register : Int → Int → Nat → HandlerType Mem Msg → ApiCall Mem Msg
  | configure : Int → Int → Nat → Direction → Direction → ApiCall Mem Msg

/-- Applies one documented API call to a grid. -/
def applyApi (g : Processor Mem Msg) : ApiCall Mem Msg → Option (Processor Mem Msg)
  | ApiCall.register i j ch f => g.register_handler i j ch f
  | ApiCall.configure i j ch rcv snd => g.route i j ch rcv snd

/-- Builds a grid exclusively through the documented API surface: construction
followed by a sequence of `register_handler` and `route` calls. -/
def buildGrid (rows cols channels : Nat) (default_memory : Mem)
    (calls : List (ApiCall Mem Msg)) : Option (Processor Mem Msg) :=
  calls.foldlM applyApi (Processor.init rows cols channels default_memory)

/-- Projection of a processing element to its simulation-invariant
configuration: inbound, outbound and skip routes and the handler lists. -/
def PE.config (pe : PE Mem Msg) :
    List Direction × List Direction × List (Direction × Direction) ×
      List (List (HandlerType Mem Msg)) :=
  (pe.inbound_routes, pe.outbound_routes, pe.skip_routes, pe.handlers)

/-- Two grids agree on dimensions, channel count, and every cell's route and
handler configuration. -/
def SameConfig (g1 g2 : Processor Mem Msg) : Prop :=
  g1.rows = g2.rows ∧ g1.cols = g2.cols ∧ g1.channels = g2.channels ∧
    ∀ k, (g1.pes.get? k).map PE.config = (g2.pes.get? k).map PE.config

/-- Every configured skip route of the element forwards somewhere: if the
first component of a skip pair is not NOTHING, neither is its second. -/
def GoodSkipsPE (pe : PE Mem Msg) : Prop :=
  ∀ p, (pe.skip_routes.getD p (Direction.NOTHING, Direction.NOTHING)).1 ≠ Direction.NOTHING →
    (pe.skip_routes.getD p (Direction.NOTHING, Direction.NOTHING)).2 ≠ Direction.NOTHING

/-- Every cell of the grid satisfies `GoodSkipsPE`. -/
def GoodSkips (g : Processor Mem Msg) : Prop := ∀ pe ∈ g.pes, GoodSkipsPE pe

/-- API calls that never create a skip route whose forward direction is
NOTHING. -/
def OkCall : ApiCall Mem Msg → Prop
  | ApiCall.register _ _ _ _ => True
  | ApiCall.configure _ _ _ rcv snd =>
      rcv ≠ Direction.PROCESSOR → snd ≠ Direction.PROCESSOR → snd ≠ Direction.NOTHING

/-- Invariant of the NOTHING-direction analysis: every configured skip route
of the grid forwards somewhere, and no logged send invocation was made with
direction NOTHING. -/
def NoNothingSends (s : Sim Mem Msg) : Prop :=
  GoodSkips s.grid ∧ ∀ ev ∈ s.log, ev.dir ≠ Direction.NOTHING

/-- Heap model for the memory-initialization claim: Python objects live in a
store and are addressed by reference indices, so that sharing and in-place
mutation are statable.  `objs` is the list of allocated memory objects. -/
structure Store (Mem : Type) where
  objs : List Mem

/-- Reads the object value behind a reference. -/
def Store.read (st : Store Mem) (r : Nat) (d : Mem) : Mem := st.objs.getD r d

/-- Mutates the object behind a reference in place. -/
def Store.write (st : Store Mem) (r : Nat) (v : Mem) : Store Mem :=
  ⟨st.objs.set r v⟩

/-- `copy.deepcopy`: allocates a fresh object whose value equals the value of
the object behind `r`, returning the extended store and the fresh reference. -/
def Store.deepcopy (st : Store Mem) (r : Nat) (d : Mem) : Store Mem × Nat :=
  (⟨st.objs ++ [st.objs.getD r d]⟩, st.objs.length)

/-- The memory-initialization loop of `Processor.__init__`: for each of `k`
cells in turn, `pe.set_memory(copy.deepcopy(default_memory))` allocates one
fresh deep copy of the prototype behind `r`; returns the final store and the
per-cell memory references in cell order. -/
def allocCells (st : Store Mem) (r : Nat) (d : Mem) : Nat → Store Mem × List Nat
  | 0 => (st, [])
  | k + 1 =>
    let fresh := st.deepcopy r d
    let rest := allocCells fresh.1 r d k
    (rest.1, fresh.2 :: rest.2)

/-- Skip-route pair of a processing element on one channel, with the
unconfigured pair as default. -/
def skipOf (pe : PE Mem Msg) (p : Nat) : Direction × Direction :=
  pe.skip_routes.getD p (Direction.NOTHING, Direction.NOTHING)

/-- Outbound route of a processing element on one channel. -/
def outOf (pe : PE Mem Msg) (p : Nat) : Direction :=
  pe.outbound_routes.getD p Direction.NOTHING

/-- The element a channel iteration dequeues: the head of the channel queue,
if any. -/
def channelElement (pe : PE Mem Msg) (p : Nat) : Option Msg :=
  (pe.queues.getD p []).head?

/-- Result of the handler loop of one channel iteration: the final memory and
the surviving (last) return value. -/
def channelResult (pe : PE Mem Msg) (p : Nat) : Mem × Option Msg :=
  runHandlers (pe.handlers.getD p []) pe.memory (channelElement pe p)

/-- The send events the outbound phase of a channel iteration produces for a
given dequeued element. -/
def outEvsFor (pe : PE Mem Msg) (p : Nat) (element : Option Msg) :
    List (SendEv Msg) :=
  match (runHandlers (pe.handlers.getD p []) pe.memory element).2 with
  | none => []
  | some m =>
    if pe.outbound_routes.getD p Direction.NOTHING ≠ Direction.NOTHING then
      [⟨pe.outbound_routes.getD p Direction.NOTHING, p, m, false⟩]
    else []

/-- The send events the outbound phase of a channel iteration produces. -/
def outEvs (pe : PE Mem Msg) (p : Nat) : List (SendEv Msg) :=
  outEvsFor pe p (channelElement pe p)

/-- Concrete handler that increments the memory and returns the message 7. -/
def wHandler1 : HandlerType Nat Nat := fun m _ => (m + 1, some 7)

/-- Concrete handler that doubles the memory and returns nothing. -/
def wHandler2 : HandlerType Nat Nat := fun m _ => (m * 2, none)

/-- Concrete cell with two handlers registered on channel 0. -/
def wPE : PE Nat Nat :=
  ⟨3, [Direction.NOTHING], [Direction.NOTHING],
    [(Direction.NOTHING, Direction.NOTHING)], [[]], [[wHandler1, wHandler2]]⟩

/-- Concrete one-cell simulation state holding `wPE`. -/
def wSim : Sim Nat Nat := ⟨⟨1, 1, 1, [wPE]⟩, []⟩

/-- Concrete cell with a skip route toward PROCESSOR and one queued message. -/
def wPE5 : PE Nat Nat :=
  ⟨0, [Direction.NOTHING], [Direction.NOTHING],
    [(Direction.NORTH, Direction.PROCESSOR)], [[42]], [[]]⟩

/-- Concrete one-cell simulation state holding `wPE5`. -/
def wSim5 : Sim Nat Nat := ⟨⟨1, 1, 1, [wPE5]⟩, []⟩

/-- Memory of the Scenario A cells: a sent flag (used by cell0) and a storage
slot (used by cell2). -/
structure AMem where
  sent : Bool
  stored : Nat
deriving DecidableEq

/-- Scenario A handler at cell0: returns 1 exactly once, guarded by the
internal sent flag. -/
def aHandler0 : HandlerType AMem Nat := fun m _ =>
  if m.sent then (m, none) else ({ m with sent := true }, some 1)

/-- Scenario A handler at cell1: returns m + 1 for a received message m. -/
def aHandler1 : HandlerType AMem Nat := fun m e =>
  match e with
  | some v => (m, some (v + 1))
  | none => (m, none)

/-- Scenario A handler at cell2: stores the received value into its memory. -/
def aHandler2 : HandlerType AMem Nat := fun m e =>
  match e with
  | some v => ({ m with stored := v }, none)
  | none => (m, none)

/-- Configuration of Scenario A: three cells in a single line chained
southwards on channel 0, with the relay routes and handlers of the claim. -/
def scenarioACalls : List (ApiCall AMem Nat) :=
  [ApiCall.configure 0 0 0 Direction.PROCESSOR Direction.SOUTH,
   ApiCall.configure 1 0 0 Direction.NORTH Direction.PROCESSOR,
   ApiCall.configure 1 0 0 Direction.PROCESSOR Direction.SOUTH,
   ApiCall.configure 2 0 0 Direction.NORTH Direction.PROCESSOR,
   ApiCall.register 0 0 0 aHandler0,
   ApiCall.register 1 0 0 aHandler1,
   ApiCall.register 2 0 0 aHandler2]

/-- Handler that returns the message 5 every step. -/
def cexHandler : HandlerType Unit Nat := fun m _ => (m, some 5)

/-- Configuration that creates, through the documented API only, a skip route
whose forward direction is NOTHING: on a 2-by-1 grid, cell0 forwards its
handler output south and cell1 carries the skip route (NORTH, NOTHING). -/
def cexCalls : List (ApiCall Unit Nat) :=
  [ApiCall.configure 0 0 0 Direction.PROCESSOR Direction.SOUTH,
   ApiCall.register 0 0 0 cexHandler,
   ApiCall.configure 1 0 0 Direction.NORTH Direction.NOTHING]

/-- Documented API calls that give cell0 of a 2-by-1 grid an outbound SOUTH
route and a handler, and create no skip route. -/
def wCalls6 : List (ApiCall Unit Nat) :=
  [ApiCall.configure 0 0 0 Direction.PROCESSOR Direction.SOUTH,
   ApiCall.register 0 0 0 cexHandler]

/-- The grid the calls of `wCalls6` build. -/
def wGrid6 : Processor Unit Nat :=
  ⟨2, 1, 1,
    [⟨(), [Direction.NOTHING], [Direction.SOUTH],
      [(Direction.NOTHING, Direction.NOTHING)], [[]], [[cexHandler]]⟩,
     PE.init 1 ()]⟩


/-! Helper lemmas. -/

theorem getD_get? (l : List α) (t : Nat) (d : α) : l.getD t d = (l.get? t).getD d := rfl

theorem get?_lt_length {l : List α} {n : Nat} {a : α} (h : l.get? n = some a) :
    n < l.length := by
  by_contra hc
  rw [List.get?_eq_none.mpr (Nat.le_of_not_lt hc)] at h
  cases h

theorem getD_set_or (l : List α) (n k : Nat) (a d : α) :
    (l.set n a).getD k d = a ∨ (l.set n a).getD k d = l.getD k d := by
  rcases eq_or_ne n k with rfl | h
  · by_cases hl : n < l.length
    · left
      rw [getD_get?, List.get?_set_eq_of_lt a hl]
      rfl
    · right
      rw [List.set_eq_of_length_le (Nat.le_of_not_lt hl)]
  · right
    rw [getD_get?, getD_get?, List.get?_set_ne a l h]

theorem modifyPE_rows (g : Processor Mem Msg) (idx : Nat) (f : PE Mem Msg → PE Mem Msg) :
    (g.modifyPE idx f).rows = g.rows := by
  unfold Processor.modifyPE
  split <;> rfl

theorem modifyPE_cols (g : Processor Mem Msg) (idx : Nat) (f : PE Mem Msg → PE Mem Msg) :
    (g.modifyPE idx f).cols = g.cols := by
  unfold Processor.modifyPE
  split <;> rfl

theorem modifyPE_channels (g : Processor Mem Msg) (idx : Nat) (f : PE Mem Msg → PE Mem Msg) :
    (g.modifyPE idx f).channels = g.channels := by
  unfold Processor.modifyPE
  split <;> rfl

theorem modifyPE_length (g : Processor Mem Msg) (idx : Nat) (f : PE Mem Msg → PE Mem Msg) :
    (g.modifyPE idx f).pes.length = g.pes.length := by
  unfold Processor.modifyPE
  split
  · rfl
  · simp [Processor.setPE]

theorem modifyPE_get?_self {g : Processor Mem Msg} {idx : Nat} {pe : PE Mem Msg}
    (hpe : g.pes.get? idx = some pe) (f : PE Mem Msg → PE Mem Msg) :
    (g.modifyPE idx f).pes.get? idx = some (f pe) := by
  unfold Processor.modifyPE
  rw [hpe]
  simp only [Processor.setPE]
  exact List.get?_set_eq_of_lt (f pe) (get?_lt_length hpe)

theorem modifyPE_map {γ : Type} (g : Processor Mem Msg) (idx : Nat)
    (f : PE Mem Msg → PE Mem Msg) (φ : PE Mem Msg → γ) (hf : ∀ q, φ (f q) = φ q) :
    ∀ k, ((g.modifyPE idx f).pes.get? k).map φ = (g.pes.get? k).map φ := by
  intro k
  unfold Processor.modifyPE
  cases hx : g.pes.get? idx with
  | none => rfl
  | some pe =>
    simp only [Processor.setPE]
    rcases eq_or_ne idx k with rfl | h
    · rw [List.get?_set_eq_of_lt (f pe) (get?_lt_length hx), hx]
      simp [hf]
    · rw [List.get?_set_ne (f pe) g.pes h]

theorem sameConfig_refl (g : Processor Mem Msg) : SameConfig g g :=
  ⟨rfl, rfl, rfl, fun _ => rfl⟩

theorem sameConfig_trans {g1 g2 g3 : Processor Mem Msg}
    (h1 : SameConfig g1 g2) (h2 : SameConfig g2 g3) : SameConfig g1 g3 := by
  obtain ⟨a1, b1, c1, d1⟩ := h1
  obtain ⟨a2, b2, c2, d2⟩ := h2
  exact ⟨a1.trans a2, b1.trans b2, c1.trans c2, fun k => (d1 k).trans (d2 k)⟩

theorem sameConfig_length {g1 g2 : Processor Mem Msg} (h : SameConfig g1 g2) :
    g1.pes.length = g2.pes.length := by
  obtain ⟨-, -, -, hk⟩ := h
  have hnone : ∀ k, g1.pes.get? k = none ↔ g2.pes.get? k = none := by
    intro k
    have := hk k
    constructor
    · intro hx
      rw [hx] at this
      cases hy : g2.pes.get? k with
      | none => rfl
      | some q => rw [hy] at this; cases this
    · intro hx
      rw [hx] at this
      cases hy : g1.pes.get? k with
      | none => rfl
      | some q => rw [hy] at this; cases this
  have h1 : g1.pes.length ≤ g2.pes.length := by
    have := (hnone g2.pes.length).mpr (List.get?_eq_none.mpr le_rfl)
    exact List.get?_eq_none.mp this
  have h2 : g2.pes.length ≤ g1.pes.length := by
    have := (hnone g1.pes.length).mp (List.get?_eq_none.mpr le_rfl)
    exact List.get?_eq_none.mp this
  exact Nat.le_antisymm h1 h2

theorem modifyPE_sameConfig (g : Processor Mem Msg) (idx : Nat)
    (f : PE Mem Msg → PE Mem Msg) (hf : ∀ q, PE.config (f q) = PE.config q) :
    SameConfig g (g.modifyPE idx f) :=
  ⟨(modifyPE_rows g idx f).symm, (modifyPE_cols g idx f).symm,
    (modifyPE_channels g idx f).symm,
    fun k => (modifyPE_map g idx f PE.config hf k).symm⟩

theorem sameConfig_goodSkips {g1 g2 : Processor Mem Msg} (h : SameConfig g1 g2)
    (hg : GoodSkips g1) : GoodSkips g2 := by
  intro pe hpe
  obtain ⟨k, hk⟩ := List.get_of_mem hpe
  have hsome : g2.pes.get? k = some pe := by
    rw [List.get?_eq_get k.2]
    exact congrArg some hk
  have hmap : (g1.pes.get? (k : Nat)).map PE.config = some (PE.config pe) := by
    rw [h.2.2.2 (k : Nat), hsome]
    rfl
  cases hx : g1.pes.get? (k : Nat) with
  | none => rw [hx] at hmap; cases hmap
  | some q =>
    rw [hx] at hmap
    have hq : PE.config q = PE.config pe := by
      simpa using hmap
    have hmem : q ∈ g1.pes := List.get?_mem hx
    intro p
    have hskip : q.skip_routes = pe.skip_routes := congrArg (fun c => c.2.2.1) hq
    have := hg q hmem p
    rw [hskip] at this
    exact this

theorem sendTo_spec {s : Sim Mem Msg} {i j : Int} {ch : Nat} {m : Msg}
    {s2 : Sim Mem Msg} (h : s.sendTo i j ch m = some s2) :
    s2.log = s.log ∧ SameConfig s.grid s2.grid ∧
      s2.grid.pes.length = s.grid.pes.length ∧
      (∀ k, (s2.grid.pes.get? k).map PE.memory = (s.grid.pes.get? k).map PE.memory) := by
  unfold Sim.sendTo at h
  cases hx : s.grid.getItem i j with
  | none => rw [hx] at h; cases h
  | some q =>
    rw [hx] at h
    cases h
    refine ⟨rfl, modifyPE_sameConfig _ _ _ (fun q2 => rfl),
      modifyPE_length _ _ _, modifyPE_map _ _ _ PE.memory (fun q2 => rfl)⟩

theorem send_spec {s : Sim Mem Msg} {i j : Int} {e : Msg} {d : Direction}
    {ch : Nat} {tag : Bool} {s2 : Sim Mem Msg}
    (h : Sim.send s i j e d ch tag = some s2) :
    s2.log = s.log ++ [⟨d, ch, e, tag⟩] ∧ SameConfig s.grid s2.grid ∧
      s2.grid.pes.length = s.grid.pes.length ∧
      (∀ k, (s2.grid.pes.get? k).map PE.memory = (s.grid.pes.get? k).map PE.memory) := by
  unfold Sim.send at h
  cases d with
  | NORTH => exact sendTo_spec h
  | SOUTH => exact sendTo_spec h
  | EAST => exact sendTo_spec h
  | WEST => exact sendTo_spec h
  | PROCESSOR =>
    cases h
    exact ⟨rfl, modifyPE_sameConfig _ _ _ (fun q2 => rfl),
      modifyPE_length _ _ _, modifyPE_map _ _ _ PE.memory (fun q2 => rfl)⟩
  | NOTHING =>
    cases h
    exact ⟨rfl, sameConfig_refl _, rfl, fun k => rfl⟩

theorem foldlM_pres {α β : Type} (P : α → α → Prop)
    (hrefl : ∀ a, P a a) (htrans : ∀ a b c, P a b → P b c → P a c)
    (f : α → β → Option α) :
    ∀ l : List β, (∀ a b a2, b ∈ l → f a b = some a2 → P a a2) →
      ∀ a a2, List.foldlM f a l = some a2 → P a a2 := by
  intro l
  induction l with
  | nil =>
    intro _ a a2 h
    cases h
    exact hrefl a
  | cons x t ih =>
    intro hf a a2 h
    have hx : List.foldlM f a (x :: t) = (f a x).bind fun b2 => List.foldlM f b2 t := rfl
    rw [hx] at h
    cases hfx : f a x with
    | none => rw [hfx] at h; cases h
    | some a1 =>
      rw [hfx] at h
      have hrest : List.foldlM f a1 t = some a2 := h
      exact htrans a a1 a2 (hf a x a1 (List.mem_cons_self x t) hfx)
        (ih (fun b c b2 hb hc => hf b c b2 (List.mem_cons_of_mem x hb) hc) a1 a2 hrest)

theorem handlerPhase_spec {s : Sim Mem Msg} {idx i j p : Nat} {pe : PE Mem Msg}
    {element : Option Msg} {s2 : Sim Mem Msg}
    (hidx : idx < s.grid.pes.length)
    (h : Sim.handlerPhase s idx i j p pe element = some s2) :
    SameConfig s.grid s2.grid ∧ s2.grid.pes.length = s.grid.pes.length ∧
      (s2.grid.pes.get? idx).map PE.memory =
        some (runHandlers (pe.handlers.getD p []) pe.memory element).1 ∧
      s2.log = s.log ++ outEvsFor pe p element := by
  obtain ⟨q1, hq1⟩ : ∃ q1, s.grid.pes.get? idx = some q1 := by
    cases hx : s.grid.pes.get? idx with
    | none => exact absurd (List.get?_eq_none.mp hx) (Nat.not_le_of_lt hidx)
    | some q => exact ⟨q, rfl⟩
  have hmem3 : ((s.grid.modifyPE idx (fun q => { q with
      memory := (runHandlers (pe.handlers.getD p []) pe.memory element).1 })).pes.get? idx).map PE.memory =
      some (runHandlers (pe.handlers.getD p []) pe.memory element).1 := by
    rw [modifyPE_get?_self hq1]
    rfl
  have hcfg3 : SameConfig s.grid (s.grid.modifyPE idx (fun q => { q with
      memory := (runHandlers (pe.handlers.getD p []) pe.memory element).1 })) :=
    modifyPE_sameConfig _ _ _ (fun q2 => rfl)
  have hlen3 : (s.grid.modifyPE idx (fun q => { q with
      memory := (runHandlers (pe.handlers.getD p []) pe.memory element).1 })).pes.length =
      s.grid.pes.length := modifyPE_length _ _ _
  simp only [Sim.handlerPhase] at h
  unfold outEvsFor
  cases hr2 : (runHandlers (pe.handlers.getD p []) pe.memory element).2 with
  | none =>
    rw [hr2] at h
    simp only [] at h
    cases h
    exact ⟨hcfg3, hlen3, hmem3, by simp⟩
  | some m =>
    rw [hr2] at h
    simp only [] at h
    by_cases hout : pe.outbound_routes.getD p Direction.NOTHING ≠ Direction.NOTHING
    · rw [if_pos hout] at h
      obtain ⟨hlog, hcfg, hlen, hmemk⟩ := send_spec h
      refine ⟨sameConfig_trans hcfg3 hcfg, by rw [hlen]; exact hlen3, ?_, ?_⟩
      · rw [hmemk idx]
        exact hmem3
      · show s2.log = s.log ++
          (if pe.outbound_routes.getD p Direction.NOTHING ≠ Direction.NOTHING then
            [⟨pe.outbound_routes.getD p Direction.NOTHING, p, m, false⟩]
          else [])
        rw [if_pos hout, hlog]
    · rw [if_neg hout] at h
      cases h
      refine ⟨hcfg3, hlen3, hmem3, ?_⟩
      show s.log = s.log ++
        (if pe.outbound_routes.getD p Direction.NOTHING ≠ Direction.NOTHING then
          [⟨pe.outbound_routes.getD p Direction.NOTHING, p, m, false⟩]
        else [])
      rw [if_neg hout]
      simp

theorem run_channel_spec {s : Sim Mem Msg} {i j p : Nat} {pe : PE Mem Msg} {s2 : Sim Mem Msg}
    (hpe : s.grid.pes.get? (i * s.grid.cols + j) = some pe)
    (h : Sim.run_channel s i j p = some s2) :
    SameConfig s.grid s2.grid ∧ s2.grid.pes.length = s.grid.pes.length ∧
      (s2.grid.pes.get? (i * s.grid.cols + j)).map PE.memory = some (channelResult pe p).1 ∧
      ∃ skipEvs : List (SendEv Msg),
        s2.log = s.log ++ skipEvs ++ outEvs pe p ∧
        (∀ e rest, pe.queues.getD p [] = e :: rest → (skipOf pe p).1 ≠ Direction.NOTHING →
          skipEvs = [⟨(skipOf pe p).2, p, e, true⟩]) ∧
        (pe.queues.getD p [] = [] → skipEvs = []) ∧
        ((skipOf pe p).1 = Direction.NOTHING → skipEvs = []) := by
  have hidx : i * s.grid.cols + j < s.grid.pes.length := get?_lt_length hpe
  simp only [Sim.run_channel, hpe] at h
  cases hq : pe.queues.getD p [] with
  | nil =>
    simp only [hq] at h
    have hce : channelElement pe p = none := by
      rw [channelElement, hq]
      rfl
    obtain ⟨hcfg, hlen, hmem, hlog⟩ := handlerPhase_spec hidx h
    refine ⟨hcfg, hlen, ?_, [], ?_, ?_, ?_, ?_⟩
    · simp only [channelResult, hce]
      exact hmem
    · simp only [outEvs, hce]
      simpa using hlog
    · intro e rest he
      exact List.noConfusion he
    · intro _
      rfl
    · intro _
      rfl
  | cons e rest =>
    simp only [hq] at h
    have hce : channelElement pe p = some e := by
      rw [channelElement, hq]
      rfl
    by_cases hsk :
        (pe.skip_routes.getD p (Direction.NOTHING, Direction.NOTHING)).1 ≠ Direction.NOTHING
    · rw [if_pos hsk] at h
      obtain ⟨smid, hsend, hhp⟩ := Option.bind_eq_some.mp h
      obtain ⟨hlogS, hcfgS, hlenS, hmemS⟩ := send_spec hsend
      have hcfgQ : SameConfig s.grid smid.grid :=
        sameConfig_trans
          (modifyPE_sameConfig s.grid (i * s.grid.cols + j)
            (fun q => { q with queues := q.queues.set p rest }) (fun q2 => rfl)) hcfgS
      have hlenQ : smid.grid.pes.length = s.grid.pes.length := by
        rw [hlenS]
        exact modifyPE_length _ _ _
      have hidx2 : i * s.grid.cols + j < smid.grid.pes.length := by
        rw [hlenQ]
        exact hidx
      obtain ⟨hcfgH, hlenH, hmemH, hlogH⟩ := handlerPhase_spec hidx2 hhp
      refine ⟨sameConfig_trans hcfgQ hcfgH, by rw [hlenH]; exact hlenQ, ?_,
        [⟨(skipOf pe p).2, p, e, true⟩], ?_, ?_, ?_, ?_⟩
      · simp only [channelResult, hce]
        exact hmemH
      · rw [hlogH, hlogS]
        simp only [outEvs, hce, skipOf]
      · intro e2 rest2 he2 _
        obtain ⟨rfl, rfl⟩ := List.cons.inj he2
        rfl
      · intro he2
        exact List.noConfusion he2
      · intro he2
        exact absurd he2 hsk
    · rw [if_neg hsk] at h
      simp only [Option.some_bind] at h
      obtain ⟨hcfgH, hlenH, hmemH, hlogH⟩ :=
        handlerPhase_spec (by simpa [modifyPE_length] using hidx) h
      refine ⟨sameConfig_trans
          (modifyPE_sameConfig s.grid (i * s.grid.cols + j)
            (fun q => { q with queues := q.queues.set p rest }) (fun q2 => rfl)) hcfgH,
        by rw [hlenH]; exact modifyPE_length _ _ _, ?_, [], ?_, ?_, ?_, ?_⟩
      · simp only [channelResult, hce]
        exact hmemH
      · rw [hlogH]
        simp only [outEvs, hce]
        simp
      · intro e2 rest2 he2 hg
        exact absurd hg hsk
      · intro he2
        exact List.noConfusion he2
      · intro _
        rfl

theorem run_channel_config {s : Sim Mem Msg} {i j p : Nat} {s2 : Sim Mem Msg}
    (h : Sim.run_channel s i j p = some s2) : SameConfig s.grid s2.grid := by
  cases hx : s.grid.pes.get? (i * s.grid.cols + j) with
  | none =>
    have heq : some s = some s2 := by
      rw [← h]
      simp only [Sim.run_channel, hx]
    cases heq
    exact sameConfig_refl _
  | some pe => exact (run_channel_spec hx h).1

theorem run_channels_config {s : Sim Mem Msg} {i j : Nat} {s2 : Sim Mem Msg}
    (h : Sim.run_channels s i j = some s2) : SameConfig s.grid s2.grid := by
  refine foldlM_pres (fun a b => SameConfig a.grid b.grid) (fun a => sameConfig_refl a.grid)
    (fun a b c h1 h2 => ?_) (fun s1 p => Sim.run_channel s1 i j p)
    (List.range s.grid.channels) (fun a b a2 _ hf => ?_) s s2 h
  · exact sameConfig_trans h1 h2
  · exact run_channel_config hf

theorem step_config {s : Sim Mem Msg} {s2 : Sim Mem Msg}
    (h : Sim.step s = some s2) : SameConfig s.grid s2.grid := by
  refine foldlM_pres (fun a b => SameConfig a.grid b.grid) (fun a => sameConfig_refl a.grid)
    (fun a b c h1 h2 => ?_) _ (List.range s.grid.rows) (fun a b a2 _ hf => ?_) s s2 h
  · exact sameConfig_trans h1 h2
  · refine foldlM_pres (fun c d => SameConfig c.grid d.grid) (fun c => sameConfig_refl c.grid)
      (fun c d e2 h1 h2 => ?_) (fun c j2 => Sim.run_channels c b j2)
      (List.range a.grid.cols) (fun c d c2 _ hf2 => ?_) a a2 hf
    · exact sameConfig_trans h1 h2
    · exact run_channels_config hf2

theorem simulate_config {s : Sim Mem Msg} {n : Nat} {s2 : Sim Mem Msg}
    (h : Sim.simulate s n = some s2) : SameConfig s.grid s2.grid := by
  induction n generalizing s with
  | zero =>
    cases h
    exact sameConfig_refl _
  | succ n ih =>
    obtain ⟨smid, h1, h2⟩ := Option.bind_eq_some.mp h
    exact sameConfig_trans (step_config h1) (ih h2)

/-- C10: for every grid state and every step count n, simulate(n) leaves the
grid's rows, cols and channel count, and every cell's inbound, outbound and
skip route configuration and handler lists unchanged; only the channels'
message queues and the cells' memory can be modified by simulation. -/
theorem claim_C10 (s : Sim Mem Msg) (n : Nat) (s2 : Sim Mem Msg)
    (h : Sim.simulate s n = some s2) : SameConfig s.grid s2.grid :=
  simulate_config h

theorem claim_C10_witness :
    SameConfig (Processor.init 1 1 1 () : Processor Unit Unit)
      (((Sim.simulate (⟨Processor.init 1 1 1 (), []⟩ : Sim Unit Unit) 1).getD
        ⟨Processor.init 1 1 1 (), []⟩).grid) :=
  claim_C10 ⟨Processor.init 1 1 1 (), []⟩ 1 _ rfl

theorem runHandlers_append (hs : List (HandlerType Mem Msg)) (hlast : HandlerType Mem Msg)
    (memory : Mem) (element : Option Msg) :
    runHandlers (hs ++ [hlast]) memory element =
      hlast (runHandlers hs memory element).1 element := by
  unfold runHandlers
  rw [List.foldl_append]
  rfl

theorem outEvsFor_viaSkip (pe : PE Mem Msg) (p : Nat) (element : Option Msg) :
    ∀ ev ∈ outEvsFor pe p element, ev.viaSkip = false := by
  intro ev hev
  unfold outEvsFor at hev
  split at hev
  · exact absurd hev (List.not_mem_nil ev)
  · rename_i m heq
    split at hev
    · have hev2 : ev = ⟨pe.outbound_routes.getD p Direction.NOTHING, p, m, false⟩ := by
        simpa using hev
      rw [hev2]
    · exact absurd hev (List.not_mem_nil ev)

theorem outEvsFor_dir (pe : PE Mem Msg) (p : Nat) (element : Option Msg) :
    ∀ ev ∈ outEvsFor pe p element, ev.dir ≠ Direction.NOTHING := by
  intro ev hev
  unfold outEvsFor at hev
  split at hev
  · exact absurd hev (List.not_mem_nil ev)
  · rename_i m heq
    split at hev
    · rename_i hout
      have hev2 : ev = ⟨pe.outbound_routes.getD p Direction.NOTHING, p, m, false⟩ := by
        simpa using hev
      rw [hev2]
      exact hout
    · exact absurd hev (List.not_mem_nil ev)

/-- C2: for every cell, channel and time step with at least two handlers
registered on that channel, the per-channel step invokes every registered
handler in registration order with (memory, element) — embedded by
`runHandlers` threading the memory through the handler list — and the
outbound message forwarded (when the outbound route is configured and the
value is non-empty) equals exactly the last handler's return value, earlier
handlers' non-empty returns being discarded, while the memory mutations
performed by every handler persist in the cell's memory. -/
theorem claim_C2 (s : Sim Mem Msg) (i j p : Nat) (pe : PE Mem Msg)
    (hs : List (HandlerType Mem Msg)) (hlast : HandlerType Mem Msg) (s2 : Sim Mem Msg)
    (hpe : s.grid.pes.get? (i * s.grid.cols + j) = some pe)
    (hh : pe.handlers.getD p [] = hs ++ [hlast])
    (htwo : hs ≠ [])
    (hrun : Sim.run_channel s i j p = some s2) :
    (s2.grid.pes.get? (i * s.grid.cols + j)).map PE.memory =
      some (hlast (runHandlers hs pe.memory (channelElement pe p)).1 (channelElement pe p)).1 ∧
    ∃ skipEvs : List (SendEv Msg), (∀ ev ∈ skipEvs, ev.viaSkip = true) ∧
      s2.log = s.log ++ skipEvs ++
        ((hlast (runHandlers hs pe.memory (channelElement pe p)).1 (channelElement pe p)).2.elim []
          (fun m =>
            if pe.outbound_routes.getD p Direction.NOTHING ≠ Direction.NOTHING then
              [⟨pe.outbound_routes.getD p Direction.NOTHING, p, m, false⟩]
            else [])) := by
  obtain ⟨-, -, hmem, skipEvs, hlog, hcons, hnil2, hskNil⟩ := run_channel_spec hpe hrun
  have hres : channelResult pe p =
      hlast (runHandlers hs pe.memory (channelElement pe p)).1 (channelElement pe p) := by
    rw [channelResult, hh, runHandlers_append]
  have hout : outEvs pe p =
      (hlast (runHandlers hs pe.memory (channelElement pe p)).1 (channelElement pe p)).2.elim []
        (fun m =>
          if pe.outbound_routes.getD p Direction.NOTHING ≠ Direction.NOTHING then
            [⟨pe.outbound_routes.getD p Direction.NOTHING, p, m, false⟩]
          else []) := by
    rw [outEvs]
    unfold outEvsFor
    rw [hh, runHandlers_append]
    cases (hlast (runHandlers hs pe.memory (channelElement pe p)).1 (channelElement pe p)).2 <;> rfl
  constructor
  · rw [hmem, hres]
  · refine ⟨skipEvs, ?_, ?_⟩
    · cases hq : pe.queues.getD p [] with
      | nil =>
        rw [hnil2 hq]
        intro ev hev
        exact absurd hev (List.not_mem_nil ev)
      | cons e rest =>
        by_cases hg : (skipOf pe p).1 ≠ Direction.NOTHING
        · rw [hcons e rest hq hg]
          intro ev hev
          have hev2 : ev = ⟨(skipOf pe p).2, p, e, true⟩ := by simpa using hev
          rw [hev2]
        · rw [hskNil (not_ne_iff.mp hg)]
          intro ev hev
          exact absurd hev (List.not_mem_nil ev)
    · rw [hlog, hout]

/-- C5: for every channel on which a skip route is configured (first component
not NOTHING), in every time step in which a message is dequeued from that
channel's queue the dequeued message is immediately forwarded via the send
primitive toward the skip route's second component — the forwarding event is
logged first, before any outbound event, regardless of what the handlers
return and regardless of the outbound route — and in steps where the queue is
empty no skip forwarding occurs. -/
theorem claim_C5 (s : Sim Mem Msg) (i j p : Nat) (pe : PE Mem Msg) (s2 : Sim Mem Msg)
    (hpe : s.grid.pes.get? (i * s.grid.cols + j) = some pe)
    (hrun : Sim.run_channel s i j p = some s2) :
    ((skipOf pe p).1 ≠ Direction.NOTHING →
      ∀ e rest, pe.queues.getD p [] = e :: rest →
        ∃ tail, s2.log = s.log ++ ⟨(skipOf pe p).2, p, e, true⟩ :: tail) ∧
    (pe.queues.getD p [] = [] → ∀ ev ∈ s2.log, ev ∈ s.log ∨ ev.viaSkip = false) := by
  obtain ⟨-, -, -, skipEvs, hlog, hcons, hnil2, -⟩ := run_channel_spec hpe hrun
  constructor
  · intro hg e rest hq
    refine ⟨outEvs pe p, ?_⟩
    rw [hlog, hcons e rest hq hg]
    simp
  · intro hq ev hev
    rw [hlog, hnil2 hq] at hev
    simp only [List.append_nil, List.nil_append, List.mem_append] at hev
    rcases hev with h | h
    · exact Or.inl h
    · exact Or.inr (outEvsFor_viaSkip pe p (channelElement pe p) ev h)

theorem claim_C2_witness :
    (((Sim.run_channel wSim 0 0 0).getD wSim).grid.pes.get? (0 * wSim.grid.cols + 0)).map
        PE.memory =
      some (wHandler2 (runHandlers [wHandler1] wPE.memory (channelElement wPE 0)).1
        (channelElement wPE 0)).1 :=
  (claim_C2 wSim 0 0 0 wPE [wHandler1] wHandler2 ((Sim.run_channel wSim 0 0 0).getD wSim)
    rfl rfl (by simp) rfl).1

theorem claim_C5_witness :
    ∃ tail, ((Sim.run_channel wSim5 0 0 0).getD wSim5).log =
      wSim5.log ++ ⟨(skipOf wPE5 0).2, 0, 42, true⟩ :: tail :=
  (claim_C5 wSim5 0 0 0 wPE5 ((Sim.run_channel wSim5 0 0 0).getD wSim5) rfl rfl).1
    (by decide) 42 [] rfl

theorem getD_replicate_self (n p : Nat) (a : α) : (List.replicate n a).getD p a = a := by
  by_cases hp : p < n
  · simp [List.getD_eq_getElem?_getD, List.getElem?_replicate, hp]
  · rw [getD_get?, List.get?_eq_none.mpr]
    · rfl
    · simpa using Nat.le_of_not_lt hp

theorem getItem_eq_get? {g : Processor Mem Msg} {i j : Int} {pe : PE Mem Msg}
    (h : g.getItem i j = some pe) :
    g.pes.get? (i.toNat * g.cols + j.toNat) = some pe := by
  unfold Processor.getItem at h
  split at h
  · cases h
  · exact h

theorem run_channel_inv {s : Sim Mem Msg} {i j p : Nat} {s2 : Sim Mem Msg}
    (h : Sim.run_channel s i j p = some s2) (hinv : NoNothingSends s) :
    NoNothingSends s2 := by
  cases hx : s.grid.pes.get? (i * s.grid.cols + j) with
  | none =>
    have heq : some s = some s2 := by
      rw [← h]
      simp only [Sim.run_channel, hx]
    cases heq
    exact hinv
  | some pe =>
    obtain ⟨hcfg, -, -, skipEvs, hlog, hcons, hnil2, hskNil⟩ := run_channel_spec hx h
    refine ⟨sameConfig_goodSkips hcfg hinv.1, ?_⟩
    intro ev hev
    rw [hlog] at hev
    simp only [List.mem_append] at hev
    rcases hev with (hev | hev) | hev
    · exact hinv.2 ev hev
    · cases hq : pe.queues.getD p [] with
      | nil =>
        rw [hnil2 hq] at hev
        exact absurd hev (List.not_mem_nil ev)
      | cons e rest =>
        by_cases hg : (skipOf pe p).1 ≠ Direction.NOTHING
        · rw [hcons e rest hq hg] at hev
          have hev2 : ev = ⟨(skipOf pe p).2, p, e, true⟩ := by simpa using hev
          rw [hev2]
          exact hinv.1 pe (List.get?_mem hx) p hg
        · rw [hskNil (not_ne_iff.mp hg)] at hev
          exact absurd hev (List.not_mem_nil ev)
    · exact outEvsFor_dir pe p (channelElement pe p) ev hev

theorem step_inv {s : Sim Mem Msg} {s2 : Sim Mem Msg}
    (h : Sim.step s = some s2) (hinv : NoNothingSends s) : NoNothingSends s2 := by
  refine foldlM_pres (fun a b => NoNothingSends a → NoNothingSends b) (fun a hx => hx)
    (fun a b c h1 h2 hx => h2 (h1 hx)) _ (List.range s.grid.rows)
    (fun a b a2 _ hf => ?_) s s2 h hinv
  refine foldlM_pres (fun c d => NoNothingSends c → NoNothingSends d) (fun c hx => hx)
    (fun c d e2 h1 h2 hx => h2 (h1 hx)) (fun c j2 => Sim.run_channels c b j2)
    (List.range a.grid.cols) (fun c d c2 _ hf2 => ?_) a a2 hf
  intro hx
  refine foldlM_pres (fun c3 d3 => NoNothingSends c3 → NoNothingSends d3) (fun c3 hy => hy)
    (fun c3 d3 e3 h1 h2 hy => h2 (h1 hy)) (fun s1 p => Sim.run_channel s1 b d p)
    (List.range c.grid.channels) (fun c3 d3 c4 _ hf3 => ?_) c c2 hf2 hx
  intro hy
  exact run_channel_inv hf3 hy

theorem simulate_inv {s : Sim Mem Msg} {n : Nat} {s2 : Sim Mem Msg}
    (h : Sim.simulate s n = some s2) (hinv : NoNothingSends s) : NoNothingSends s2 := by
  induction n generalizing s with
  | zero =>
    cases h
    exact hinv
  | succ n ih =>
    obtain ⟨smid, h1, h2⟩ := Option.bind_eq_some.mp h
    exact ih h2 (step_inv h1 hinv)

theorem applyApi_goodSkips {g g2 : Processor Mem Msg} {c : ApiCall Mem Msg}
    (hok : OkCall c) (h : applyApi g c = some g2) (hg : GoodSkips g) : GoodSkips g2 := by
  cases c with
  | register i j ch f =>
    replace h : g.register_handler i j ch f = some g2 := h
    unfold Processor.register_handler at h
    cases hx : g.getItem i j with
    | none =>
      simp only [hx] at h
      exact Option.noConfusion h
    | some pe =>
      simp only [hx] at h
      split at h
      · cases h
        intro q hq
        rcases List.mem_or_eq_of_mem_set hq with hq2 | rfl
        · exact hg q hq2
        · exact hg pe (List.get?_mem (getItem_eq_get? hx))
      · exact Option.noConfusion h
  | configure i j ch rcv snd =>
    replace h : g.route i j ch rcv snd = some g2 := h
    unfold Processor.route at h
    cases hx : g.getItem i j with
    | none =>
      simp only [hx] at h
      exact Option.noConfusion h
    | some pe =>
      simp only [hx] at h
      by_cases hsnd : snd = Direction.PROCESSOR
      · rw [if_pos hsnd] at h
        split at h
        · cases h
          intro q hq
          rcases List.mem_or_eq_of_mem_set hq with hq2 | rfl
          · exact hg q hq2
          · exact hg pe (List.get?_mem (getItem_eq_get? hx))
        · cases h
      · rw [if_neg hsnd] at h
        by_cases hrcv : rcv = Direction.PROCESSOR
        · rw [if_pos hrcv] at h
          split at h
          · cases h
            intro q hq
            rcases List.mem_or_eq_of_mem_set hq with hq2 | rfl
            · exact hg q hq2
            · exact hg pe (List.get?_mem (getItem_eq_get? hx))
          · cases h
        · rw [if_neg hrcv] at h
          split at h
          · cases h
            intro q hq
            rcases List.mem_or_eq_of_mem_set hq with hq2 | rfl
            · exact hg q hq2
            · intro p2 hp2
              rcases getD_set_or pe.skip_routes ch p2 (rcv, snd)
                  (Direction.NOTHING, Direction.NOTHING) with hcase | hcase
              · rw [hcase]
                exact hok hrcv hsnd
              · rw [hcase] at hp2 ⊢
                exact hg pe (List.get?_mem (getItem_eq_get? hx)) p2 hp2
          · cases h

theorem buildGrid_goodSkips {rows cols channels : Nat} {dm : Mem}
    {calls : List (ApiCall Mem Msg)} {g : Processor Mem Msg}
    (hok : ∀ c ∈ calls, OkCall c)
    (h : buildGrid rows cols channels dm calls = some g) : GoodSkips g := by
  have hinit : GoodSkips (Processor.init rows cols channels dm : Processor Mem Msg) := by
    intro pe hpe p
    have hpe2 : pe = PE.init channels dm := List.eq_of_mem_replicate hpe
    rw [hpe2]
    intro hcontra
    exact absurd (congrArg Prod.fst
      (getD_replicate_self channels p (Direction.NOTHING, Direction.NOTHING))) hcontra
  refine foldlM_pres (fun g1 g2 => GoodSkips g1 → GoodSkips g2) (fun a hx => hx)
    (fun a b c h1 h2 hx => h2 (h1 hx)) applyApi calls
    (fun a c a2 hc hap => ?_) _ g h hinit
  exact fun hx => applyApi_goodSkips (hok c hc) hap hx

/-- C6 amended: for every grid configured exclusively through the documented
API, provided no configure_route call creates a skip route whose send
direction is NOTHING (every call with both directions different from
PROCESSOR has send direction different from NOTHING), the send primitive is
never invoked with direction NOTHING during any number of simulation steps. -/
theorem claim_C6 (rows cols channels : Nat) (dm : Mem)
    (calls : List (ApiCall Mem Msg)) (g : Processor Mem Msg) (n : Nat)
    (s2 : Sim Mem Msg)
    (hok : ∀ c ∈ calls, OkCall c)
    (hb : buildGrid rows cols channels dm calls = some g)
    (hsim : Sim.simulate ⟨g, []⟩ n = some s2) :
    ∀ ev ∈ s2.log, ev.dir ≠ Direction.NOTHING := by
  have hinv : NoNothingSends (⟨g, []⟩ : Sim Mem Msg) :=
    ⟨buildGrid_goodSkips hok hb, fun ev hev => absurd hev (List.not_mem_nil ev)⟩
  exact (simulate_inv hsim hinv).2

/-- C6 counterexample: the claim as stated is false.  Through documented API
calls only (a 2-by-1 grid where cell0 forwards its handler output south and
cell1 is given the skip route (NORTH, NOTHING)), one simulation step invokes
the send primitive with direction NOTHING: the send log of the step is
[SOUTH, NOTHING]. -/
theorem claim_C6_counterexample :
    (buildGrid 2 1 1 () cexCalls).bind (fun g =>
      (Sim.simulate ⟨g, []⟩ 1).map (fun s => s.log.map SendEv.dir)) =
      some [Direction.SOUTH, Direction.NOTHING] := rfl

theorem claim_C6_witness :
    SendEv.dir (⟨Direction.SOUTH, 0, 5, false⟩ : SendEv Nat) ≠ Direction.NOTHING := by
  refine claim_C6 2 1 1 () wCalls6 wGrid6 1
    ⟨wGrid6, [⟨Direction.SOUTH, 0, 5, false⟩]⟩ ?_ rfl rfl
    ⟨Direction.SOUTH, 0, 5, false⟩ ?_
  · intro c hc
    simp only [wCalls6, List.mem_cons, List.not_mem_nil, or_false] at hc
    rcases hc with rfl | rfl
    · intro h1 _
      exact absurd rfl h1
    · exact trivial
  · simp

/-- C1: in the relay-chain configuration of Scenario A — three cells in a
single line chained on channel 0 with routes cell0: PROCESSOR to SOUTH,
cell1: NORTH to PROCESSOR and PROCESSOR to SOUTH, cell2: NORTH to PROCESSOR,
where cell0's handler returns 1 exactly once (guarded by an internal flag),
cell1's handler returns m+1 for a received message m, and cell2's handler
stores the received value into its memory — after simulate(3), cell2's
memory equals 2. -/
theorem claim_C1 :
    (buildGrid 3 1 1 ⟨false, 0⟩ scenarioACalls).bind (fun g =>
      (Sim.simulate ⟨g, []⟩ 3).bind (fun s =>
        (s.grid.getItem 2 0).map (fun pe => pe.memory.stored))) = some 2 := rfl

/-- C7: two grids constructed with identical dimensions, channel count,
initial memory, route configurations and handlers (pure functions of memory
and message, as all handlers of the embedding are) have identical memory
contents in every cell after simulate(N), for every N. -/
theorem claim_C7 (rows cols channels : Nat) (dm : Mem)
    (calls : List (ApiCall Mem Msg)) (n : Nat) (g1 g2 : Processor Mem Msg)
    (h1 : buildGrid rows cols channels dm calls = some g1)
    (h2 : buildGrid rows cols channels dm calls = some g2) :
    (Sim.simulate ⟨g1, []⟩ n).map (fun s => s.grid.pes.map PE.memory) =
      (Sim.simulate ⟨g2, []⟩ n).map (fun s => s.grid.pes.map PE.memory) := by
  have hg : g1 = g2 := Option.some.inj (h1.symm.trans h2)
  rw [hg]

theorem claim_C7_witness :
    (Sim.simulate (⟨Processor.init 1 1 1 (), []⟩ : Sim Unit Unit) 2).map
        (fun s => s.grid.pes.map PE.memory) =
      (Sim.simulate (⟨Processor.init 1 1 1 (), []⟩ : Sim Unit Unit) 2).map
        (fun s => s.grid.pes.map PE.memory) :=
  claim_C7 1 1 1 () [] 2 (Processor.init 1 1 1 ()) (Processor.init 1 1 1 ()) rfl rfl

/-- C3: cell_at(r, c) fails with a bounds error exactly when r < 0, r ≥ rows,
c < 0 or c ≥ cols; for every valid (r, c) it succeeds and the handle is the
fixed list slot at flat index r * cols + c, hence stable across repeated
calls; and an edge-of-grid send (NORTH from row 0, SOUTH from the last row,
WEST from column 0, EAST from the last column) fails with a bounds error
rather than silently doing nothing. -/
theorem claim_C3 (g : Processor Mem Msg) (hlen : g.pes.length = g.rows * g.cols)
    (r c si sj : Int) (s : Sim Mem Msg) (m : Msg) (ch : Nat) (tag : Bool) :
    (g.getItem r c = none ↔
      (r < 0 ∨ r ≥ (g.rows : Int) ∨ c < 0 ∨ c ≥ (g.cols : Int))) ∧
    (¬(r < 0 ∨ r ≥ (g.rows : Int) ∨ c < 0 ∨ c ≥ (g.cols : Int)) →
      g.getItem r c = g.pes.get? (r.toNat * g.cols + c.toNat) ∧
        (g.getItem r c).isSome) ∧
    (si = 0 → Sim.send s si sj m Direction.NORTH ch tag = none) ∧
    (si + 1 = (s.grid.rows : Int) → Sim.send s si sj m Direction.SOUTH ch tag = none) ∧
    (sj = 0 → Sim.send s si sj m Direction.WEST ch tag = none) ∧
    (sj + 1 = (s.grid.cols : Int) → Sim.send s si sj m Direction.EAST ch tag = none) := by
  have hflat : ¬(r < 0 ∨ r ≥ (g.rows : Int) ∨ c < 0 ∨ c ≥ (g.cols : Int)) →
      r.toNat * g.cols + c.toNat < g.pes.length := by
    intro hcond
    have hr : r.toNat < g.rows := by omega
    have hc : c.toNat < g.cols := by omega
    have h1 : r.toNat * g.cols + c.toNat < (r.toNat + 1) * g.cols := by
      have hmul : (r.toNat + 1) * g.cols = r.toNat * g.cols + g.cols := by ring
      omega
    have h2 : (r.toNat + 1) * g.cols ≤ g.rows * g.cols :=
      Nat.mul_le_mul_right _ (by omega)
    omega
  refine ⟨?_, ?_, ?_, ?_, ?_, ?_⟩
  · unfold Processor.getItem
    by_cases hcond : r < 0 ∨ r ≥ (g.rows : Int) ∨ c < 0 ∨ c ≥ (g.cols : Int)
    · rw [if_pos hcond]
      simp [hcond]
    · rw [if_neg hcond]
      simp only [hcond, iff_false]
      intro hnone
      exact absurd (List.get?_eq_none.mp hnone) (Nat.not_le_of_lt (hflat hcond))
  · intro hcond
    unfold Processor.getItem
    rw [if_neg hcond]
    refine ⟨rfl, ?_⟩
    rw [Option.isSome_iff_ne_none]
    intro hnone
    exact absurd (List.get?_eq_none.mp hnone) (Nat.not_le_of_lt (hflat hcond))
  · intro h0
    subst h0
    have hcond : (0 : Int) - 1 < 0 ∨ (0 : Int) - 1 ≥ (s.grid.rows : Int) ∨
        sj < 0 ∨ sj ≥ (s.grid.cols : Int) := Or.inl (by norm_num)
    simp only [Sim.send, Sim.sendTo, Processor.getItem, if_pos hcond]
  · intro hrow
    have hcond : si + 1 < 0 ∨ si + 1 ≥ (s.grid.rows : Int) ∨
        sj < 0 ∨ sj ≥ (s.grid.cols : Int) := Or.inr (Or.inl (le_of_eq hrow.symm))
    simp only [Sim.send, Sim.sendTo, Processor.getItem, if_pos hcond]
  · intro h0
    subst h0
    have hcond : si < 0 ∨ si ≥ (s.grid.rows : Int) ∨
        (0 : Int) - 1 < 0 ∨ (0 : Int) - 1 ≥ (s.grid.cols : Int) :=
      Or.inr (Or.inr (Or.inl (by norm_num)))
    simp only [Sim.send, Sim.sendTo, Processor.getItem, if_pos hcond]
  · intro hcol
    have hcond : si < 0 ∨ si ≥ (s.grid.rows : Int) ∨
        sj + 1 < 0 ∨ sj + 1 ≥ (s.grid.cols : Int) :=
      Or.inr (Or.inr (Or.inr (le_of_eq hcol.symm)))
    simp only [Sim.send, Sim.sendTo, Processor.getItem, if_pos hcond]

theorem claim_C3_witness :
    (Processor.init 2 2 1 (0 : Nat) : Processor Nat Nat).getItem 5 0 = none ↔
      ((5 : Int) < 0 ∨ (5 : Int) ≥ ((Processor.init 2 2 1 (0 : Nat) : Processor Nat Nat).rows : Int) ∨
        (0 : Int) < 0 ∨ (0 : Int) ≥ ((Processor.init 2 2 1 (0 : Nat) : Processor Nat Nat).cols : Int)) :=
  (claim_C3 (Processor.init 2 2 1 0) rfl 5 0 0 0
    ⟨Processor.init 2 2 1 0, []⟩ 0 0 false).1

theorem getItem_setPE {g : Processor Mem Msg} {i j : Int} {pe : PE Mem Msg}
    (hget : g.getItem i j = some pe) (pe2 : PE Mem Msg) :
    (g.setPE (i.toNat * g.cols + j.toNat) pe2).getItem i j = some pe2 := by
  have hidx := get?_lt_length (getItem_eq_get? hget)
  unfold Processor.getItem at hget ⊢
  split at hget
  · exact Option.noConfusion hget
  · rename_i hcond
    simp only [Processor.setPE]
    rw [if_neg hcond]
    exact List.get?_set_eq_of_lt pe2 hidx

theorem route_eq_inbound {g : Processor Mem Msg} {i j : Int} {ch : Nat} {pe : PE Mem Msg}
    (hget : g.getItem i j = some pe) (hch : ch < pe.inbound_routes.length)
    (rcv : Direction) :
    g.route i j ch rcv Direction.PROCESSOR =
      some (g.setPE (i.toNat * g.cols + j.toNat)
        { pe with inbound_routes := pe.inbound_routes.set ch rcv }) := by
  unfold Processor.route
  simp only [hget]
  rw [if_pos True.intro, if_pos hch]

theorem route_eq_outbound {g : Processor Mem Msg} {i j : Int} {ch : Nat} {pe : PE Mem Msg}
    (hget : g.getItem i j = some pe) (hch : ch < pe.outbound_routes.length)
    {snd : Direction} (hsnd : snd ≠ Direction.PROCESSOR) :
    g.route i j ch Direction.PROCESSOR snd =
      some (g.setPE (i.toNat * g.cols + j.toNat)
        { pe with outbound_routes := pe.outbound_routes.set ch snd }) := by
  unfold Processor.route
  simp only [hget]
  rw [if_neg hsnd, if_pos True.intro, if_pos hch]

theorem route_eq_skip {g : Processor Mem Msg} {i j : Int} {ch : Nat} {pe : PE Mem Msg}
    (hget : g.getItem i j = some pe) (hch : ch < pe.skip_routes.length)
    {rcv snd : Direction} (hrcv : rcv ≠ Direction.PROCESSOR)
    (hsnd : snd ≠ Direction.PROCESSOR) :
    g.route i j ch rcv snd =
      some (g.setPE (i.toNat * g.cols + j.toNat)
        { pe with skip_routes := pe.skip_routes.set ch (rcv, snd) }) := by
  unfold Processor.route
  simp only [hget]
  rw [if_neg hsnd, if_neg hrcv, if_pos hch]

/-- C4: configure_route sets exactly one of the three route kinds, determined
by which argument equals PROCESSOR (send = PROCESSOR sets the channel's
inbound route to the receive direction; otherwise receive = PROCESSOR sets
the outbound route to the send direction; otherwise the skip route is set to
the pair (receive, send)) — the resulting grid differs from the original in
that one field of that one cell only — and calling it again for the same
cell, channel and route kind with different directions silently overwrites:
the result is as if only the second configuration had been applied, with no
error. -/
theorem claim_C4 (g : Processor Mem Msg) (i j : Int) (ch : Nat)
    (rcv snd : Direction) (pe : PE Mem Msg) (g2 : Processor Mem Msg)
    (hget : g.getItem i j = some pe)
    (h : g.route i j ch rcv snd = some g2) :
    (snd = Direction.PROCESSOR →
      g2 = g.setPE (i.toNat * g.cols + j.toNat)
          { pe with inbound_routes := pe.inbound_routes.set ch rcv } ∧
      ∀ rcv2 g3, g2.route i j ch rcv2 Direction.PROCESSOR = some g3 →
        g3 = g.setPE (i.toNat * g.cols + j.toNat)
          { pe with inbound_routes := pe.inbound_routes.set ch rcv2 }) ∧
    (snd ≠ Direction.PROCESSOR → rcv = Direction.PROCESSOR →
      g2 = g.setPE (i.toNat * g.cols + j.toNat)
          { pe with outbound_routes := pe.outbound_routes.set ch snd } ∧
      ∀ snd2 g3, snd2 ≠ Direction.PROCESSOR →
        g2.route i j ch Direction.PROCESSOR snd2 = some g3 →
        g3 = g.setPE (i.toNat * g.cols + j.toNat)
          { pe with outbound_routes := pe.outbound_routes.set ch snd2 }) ∧
    (snd ≠ Direction.PROCESSOR → rcv ≠ Direction.PROCESSOR →
      g2 = g.setPE (i.toNat * g.cols + j.toNat)
          { pe with skip_routes := pe.skip_routes.set ch (rcv, snd) } ∧
      ∀ rcv2 snd2 g3, rcv2 ≠ Direction.PROCESSOR → snd2 ≠ Direction.PROCESSOR →
        g2.route i j ch rcv2 snd2 = some g3 →
        g3 = g.setPE (i.toNat * g.cols + j.toNat)
          { pe with skip_routes := pe.skip_routes.set ch (rcv2, snd2) }) := by
  refine ⟨?_, ?_, ?_⟩
  · intro hsnd
    subst hsnd
    have hch : ch < pe.inbound_routes.length := by
      by_contra hc
      unfold Processor.route at h
      simp only [hget] at h
      rw [if_pos True.intro, if_neg hc] at h
      exact Option.noConfusion h
    rw [route_eq_inbound hget hch rcv] at h
    have hg2 := Option.some.inj h
    subst hg2
    refine ⟨rfl, ?_⟩
    intro rcv2 g3 h3
    have hch2 : ch < ({ pe with inbound_routes := pe.inbound_routes.set ch rcv } :
        PE Mem Msg).inbound_routes.length := by
      simpa using hch
    rw [route_eq_inbound (getItem_setPE hget _) hch2 rcv2] at h3
    have hg3 := Option.some.inj h3
    subst hg3
    simp [Processor.setPE, List.set_set]
  · intro hsnd hrcv
    subst hrcv
    have hch : ch < pe.outbound_routes.length := by
      by_contra hc
      unfold Processor.route at h
      simp only [hget] at h
      rw [if_neg hsnd, if_pos True.intro, if_neg hc] at h
      exact Option.noConfusion h
    rw [route_eq_outbound hget hch hsnd] at h
    have hg2 := Option.some.inj h
    subst hg2
    refine ⟨rfl, ?_⟩
    intro snd2 g3 hsnd2 h3
    have hch2 : ch < ({ pe with outbound_routes := pe.outbound_routes.set ch snd } :
        PE Mem Msg).outbound_routes.length := by
      simpa using hch
    rw [route_eq_outbound (getItem_setPE hget _) hch2 hsnd2] at h3
    have hg3 := Option.some.inj h3
    subst hg3
    simp [Processor.setPE, List.set_set]
  · intro hsnd hrcv
    have hch : ch < pe.skip_routes.length := by
      by_contra hc
      unfold Processor.route at h
      simp only [hget] at h
      rw [if_neg hsnd, if_neg hrcv, if_neg hc] at h
      exact Option.noConfusion h
    rw [route_eq_skip hget hch hrcv hsnd] at h
    have hg2 := Option.some.inj h
    subst hg2
    refine ⟨rfl, ?_⟩
    intro rcv2 snd2 g3 hrcv2 hsnd2 h3
    have hch2 : ch < ({ pe with skip_routes := pe.skip_routes.set ch (rcv, snd) } :
        PE Mem Msg).skip_routes.length := by
      simpa using hch
    rw [route_eq_skip (getItem_setPE hget _) hch2 hrcv2 hsnd2] at h3
    have hg3 := Option.some.inj h3
    subst hg3
    simp [Processor.setPE, List.set_set]

/-- C9: calling configure_route with receive = PROCESSOR and send = PROCESSOR
simultaneously sets only the channel's inbound route (to PROCESSOR), leaving
the outbound route and skip route unchanged: the send = PROCESSOR case takes
precedence when both arguments equal PROCESSOR. -/
theorem claim_C9 (g : Processor Mem Msg) (i j : Int) (ch : Nat)
    (pe : PE Mem Msg) (g2 : Processor Mem Msg)
    (hget : g.getItem i j = some pe)
    (h : g.route i j ch Direction.PROCESSOR Direction.PROCESSOR = some g2) :
    g2 = g.setPE (i.toNat * g.cols + j.toNat)
      { pe with inbound_routes := pe.inbound_routes.set ch Direction.PROCESSOR } := by
  have hch : ch < pe.inbound_routes.length := by
    by_contra hc
    unfold Processor.route at h
    simp only [hget] at h
    rw [if_pos True.intro, if_neg hc] at h
    exact Option.noConfusion h
  rw [route_eq_inbound hget hch Direction.PROCESSOR] at h
  exact (Option.some.inj h).symm

theorem claim_C4_witness :
    ((Processor.init 1 1 1 (0 : Nat) : Processor Nat Nat).route 0 0 0 Direction.NORTH
        Direction.PROCESSOR).getD (Processor.init 1 1 1 0) =
      (Processor.init 1 1 1 0 : Processor Nat Nat).setPE
        ((0 : Int).toNat * (Processor.init 1 1 1 0 : Processor Nat Nat).cols + (0 : Int).toNat)
        { (PE.init 1 0 : PE Nat Nat) with
          inbound_routes := (PE.init 1 0 : PE Nat Nat).inbound_routes.set 0 Direction.NORTH } :=
  ((claim_C4 (Processor.init 1 1 1 0) 0 0 0 Direction.NORTH Direction.PROCESSOR (PE.init 1 0)
    (((Processor.init 1 1 1 (0 : Nat) : Processor Nat Nat).route 0 0 0 Direction.NORTH
        Direction.PROCESSOR).getD (Processor.init 1 1 1 0)) rfl rfl).1 rfl).1

theorem claim_C9_witness :
    ((Processor.init 1 1 1 (0 : Nat) : Processor Nat Nat).route 0 0 0 Direction.PROCESSOR
        Direction.PROCESSOR).getD (Processor.init 1 1 1 0) =
      (Processor.init 1 1 1 0 : Processor Nat Nat).setPE
        ((0 : Int).toNat * (Processor.init 1 1 1 0 : Processor Nat Nat).cols + (0 : Int).toNat)
        { (PE.init 1 0 : PE Nat Nat) with
          inbound_routes := (PE.init 1 0 : PE Nat Nat).inbound_routes.set 0 Direction.PROCESSOR } :=
  claim_C9 (Processor.init 1 1 1 0) 0 0 0 (PE.init 1 0)
    (((Processor.init 1 1 1 (0 : Nat) : Processor Nat Nat).route 0 0 0 Direction.PROCESSOR
        Direction.PROCESSOR).getD (Processor.init 1 1 1 0)) rfl rfl

theorem getD_append_len (l1 l2 : List α) (t : Nat) (d : α) :
    (l1 ++ l2).getD (l1.length + t) d = l2.getD t d := by
  simp [List.getD_eq_getElem?_getD, List.getElem?_append_right]

theorem getD_replicate_lt (n : Nat) (v : α) (t : Nat) (h : t < n) (d : α) :
    (List.replicate n v).getD t d = v := by
  simp [List.getD_eq_getElem?_getD, List.getElem?_replicate, h]

theorem write_read_ne (st : Store Mem) (a b : Nat) (v d : Mem) (h : a ≠ b) :
    (st.write a v).read b d = st.read b d := by
  unfold Store.write Store.read
  rw [getD_get?, getD_get?, List.get?_set_ne v _ h]

theorem allocCells_spec (st : Store Mem) (r : Nat) (d : Mem) (k : Nat)
    (hr : r < st.objs.length) :
    allocCells st r d k =
      (⟨st.objs ++ List.replicate k (st.objs.getD r d)⟩,
        List.range' st.objs.length k) := by
  induction k generalizing st with
  | zero =>
    show (st, ([] : List Nat)) =
      (⟨st.objs ++ List.replicate 0 (st.objs.getD r d)⟩, List.range' st.objs.length 0)
    cases st with
    | mk objs => simp [List.range']
  | succ k ih =>
    have hr2 : r < ((⟨st.objs ++ [st.objs.getD r d]⟩ : Store Mem)).objs.length := by
      simp
      omega
    show ((allocCells ⟨st.objs ++ [st.objs.getD r d]⟩ r d k).1,
        st.objs.length :: (allocCells ⟨st.objs ++ [st.objs.getD r d]⟩ r d k).2) =
      (⟨st.objs ++ List.replicate (k + 1) (st.objs.getD r d)⟩,
        List.range' st.objs.length (k + 1))
    rw [ih ⟨st.objs ++ [st.objs.getD r d]⟩ hr2]
    have hd2 : (st.objs ++ [st.objs.getD r d]).getD r d = st.objs.getD r d :=
      List.getD_append _ _ _ _ hr
    simp only [hd2]
    rw [Prod.mk.injEq]
    refine ⟨?_, ?_⟩
    · congr 1
      rw [List.append_assoc]
      rfl
    · have hlen : (st.objs ++ [st.objs.getD r d]).length = st.objs.length + 1 := by simp
      rw [hlen]
      rfl

/-- C8: the memory-initialization loop allocates an independent deep copy of
the prototype for every cell: the per-cell memory references are pairwise
distinct and distinct from the prototype's reference, every copy's value
equals the prototype's value, construction does not mutate the prototype
object, and mutating one cell's memory changes neither another cell's memory
nor the prototype. -/
theorem claim_C8 (st : Store Mem) (r : Nat) (d : Mem) (k : Nat)
    (hr : r < st.objs.length) (st2 : Store Mem) (refs : List Nat)
    (halloc : allocCells st r d k = (st2, refs)) :
    refs.Nodup ∧ r ∉ refs ∧
    (∀ a ∈ refs, st2.read a d = st.read r d) ∧
    st2.read r d = st.read r d ∧
    (∀ a ∈ refs, ∀ b ∈ refs, a ≠ b → ∀ v, (st2.write a v).read b d = st2.read b d) ∧
    (∀ a ∈ refs, ∀ v, (st2.write a v).read r d = st2.read r d) := by
  rw [allocCells_spec st r d k hr] at halloc
  injection halloc with h1 h2
  subst h1
  subst h2
  have hmem : ∀ a ∈ List.range' st.objs.length k,
      st.objs.length ≤ a ∧ a < st.objs.length + k := by
    intro a ha
    exact List.mem_range'_1.mp ha
  have hnotr : r ∉ List.range' st.objs.length k := by
    intro hc
    exact absurd (hmem r hc).1 (Nat.not_le_of_lt hr)
  refine ⟨List.nodup_range' st.objs.length k 1 one_pos, hnotr, ?_, ?_, ?_, ?_⟩
  · intro a ha
    obtain ⟨hle, hlt⟩ := hmem a ha
    show (st.objs ++ List.replicate k (st.objs.getD r d)).getD a d = st.read r d
    have ha2 : a = st.objs.length + (a - st.objs.length) := by omega
    rw [ha2, getD_append_len]
    exact getD_replicate_lt k (st.objs.getD r d) (a - st.objs.length) (by omega) d
  · show (st.objs ++ List.replicate k (st.objs.getD r d)).getD r d = st.read r d
    exact List.getD_append _ _ _ _ hr
  · intro a _ b _ hab v
    exact write_read_ne _ a b v d hab
  · intro a ha v
    refine write_read_ne _ a r v d ?_
    intro hc
    rw [hc] at ha
    exact hnotr ha

theorem claim_C8_witness :
    List.Nodup [1, 2] ∧
      Store.read (⟨[7, 7, 7]⟩ : Store Nat) 0 0 = Store.read (⟨[7]⟩ : Store Nat) 0 0 :=
  ⟨(claim_C8 (⟨[7]⟩ : Store Nat) 0 0 2 (by decide) ⟨[7, 7, 7]⟩ [1, 2] rfl).1,
    (claim_C8 (⟨[7]⟩ : Store Nat) 0 0 2 (by decide) ⟨[7, 7, 7]⟩ [1, 2] rfl).2.2.2.1⟩

end DFSim
